import Mathlib

/-!
Verification of the Solana → EVM address-mapping system.

The address-mapping engine (actions store / get / update over a key-value
store with atomic create-if-absent) is described by the repository's
integration specification; its policy implementation (policy/src/main.rs)
is not part of the repository snapshot, so the engine is modelled here
from the specification's contracts.  The wallet-authentication flow
(nonce cache, signature verification) is embedded from
backend/solana-auth.ts.
-/

namespace SolanaEvm

/-- Hex digit in either case, `0`-`9`, `a`-`f`, `A`-`F`. -/
def isHexChar (ch : Char) : Bool :=
  ch.isDigit || (decide ('a' ≤ ch) && decide (ch ≤ 'f')) || (decide ('A' ≤ ch) && decide (ch ≤ 'F'))

/-- Modelled from the spec: the EVM address format check used by store and
update — the string starts with 0x and consists of 0x followed by 40 hex
characters (42 characters total).  Stated over the character list of the
string. -/
def validEvmAddress (a : String) : Bool :=
  match a.data with
  | '0' :: 'x' :: rest => (rest.length == 40) && rest.all isHexChar
  | _ => false

deriving instance DecidableEq for Except

/-- Validation error taxonomy of the engine. -/
inductive EngineError where
  | EmptyChainList
  | InvalidAddressFormat
  | NotProvisioned
deriving DecidableEq, Repr

/-- Modelled from the spec: the key-value store state seen by the engine.
The key namespace has exactly two key families, the default mapping
default:{pubkey} and the chain mapping {pubkey}:{chain_id}; the state
records the value held at each key of each family. -/
structure KV where
  dflt : String → Option String
  chains : String → Nat → Option String

/-- The empty store: no key holds a value. -/
def KV.empty : KV := ⟨fun _ => none, fun _ _ => none⟩

/-- Unconditional write at the default key of a pubkey. -/
def KV.setDflt (s : KV) (p a : String) : KV :=
  { s with dflt := fun q => if q = p then some a else s.dflt q }

/-- Unconditional write at the chain key of a (pubkey, chain) pair. -/
def KV.setChain (s : KV) (p : String) (c : Nat) (a : String) : KV :=
  { s with chains := fun q d => if q = p ∧ d = c then some a else s.chains q d }

/-- Modelled from the spec: createIfAbsent on the default key — atomically
writes iff no value exists, returns true on success and false (store
unchanged) if a value already existed. -/
def KV.createDfltIfAbsent (s : KV) (p a : String) : KV × Bool :=
  match s.dflt p with
  | some _ => (s, false)
  | none => (s.setDflt p a, true)

/-- Modelled from the spec: createIfAbsent on a chain key. -/
def KV.createChainIfAbsent (s : KV) (p : String) (c : Nat) (a : String) : KV × Bool :=
  match s.chains p c with
  | some _ => (s, false)
  | none => (s.setChain p c a, true)

/-- Success payload of the store action. -/
structure StoreOk where
  evm_address : String
  chain_mappings : List (Nat × String)
deriving DecidableEq, Repr

/-- Success payload of the get action; an absent chain mapping is reported
as none (null), never substituted by the default. -/
structure GetOk where
  default_address : String
  chain_mappings : List (Nat × Option String)
deriving DecidableEq, Repr

/-- Success payload of the update action. -/
structure UpdateOk where
  new_evm_address : String
  chain_id : Nat
deriving DecidableEq, Repr

/-- Modelled from the spec: step 4 of the store action — for each chain id
in order, attempt createIfAbsent on the chain key with the canonical
address, and report the value now stored at that key (which may differ
from canonical if the mapping already existed). -/
def storeChains (p canon : String) : List Nat → KV → KV × List (Nat × String)
  | [], s => (s, [])
  | c :: cs, s =>
      let s1 := (s.createChainIfAbsent p c canon).fst
      let v := ((s1.chains p c).getD canon)
      let r := storeChains p canon cs s1
      (r.fst, (c, v) :: r.snd)

/-- Modelled from the spec: the store action.  Reject EmptyChainList on an
empty chain list, reject InvalidAddressFormat on a malformed candidate
address, then createIfAbsent on the default key (on failure fall back to
reading the stored default as the canonical address), then createIfAbsent
each chain key with the canonical address, and return the canonical
address together with the value now stored at each requested chain key. -/
def store (s : KV) (p : String) (chainIds : List Nat) (cand : String) :
    KV × Except EngineError StoreOk :=
  if chainIds.isEmpty then (s, Except.error EngineError.EmptyChainList)
  else if validEvmAddress cand then
    let r0 := s.createDfltIfAbsent p cand
    let canon := if r0.snd then cand else ((r0.fst).dflt p).getD cand
    let r1 := storeChains p canon chainIds r0.fst
    (r1.fst, Except.ok ⟨canon, r1.snd⟩)
  else (s, Except.error EngineError.InvalidAddressFormat)

/-- Modelled from the spec: the get action.  Read the default key; if
absent return NotProvisioned, otherwise return the stored default address
and, per requested chain, the stored value (none when absent).  Purely
read-only. -/
def get (s : KV) (p : String) (chainIds : List Nat) :
    KV × Except EngineError GetOk :=
  match s.dflt p with
  | none => (s, Except.error EngineError.NotProvisioned)
  | some d => (s, Except.ok ⟨d, chainIds.map (fun c => (c, s.chains p c))⟩)

/-- Modelled from the spec: the update action.  Reject
InvalidAddressFormat on a malformed address, reject NotProvisioned when
the default key is absent, otherwise overwrite the chain key
unconditionally and return the new address and chain id. -/
def update (s : KV) (p : String) (c : Nat) (newAddr : String) :
    KV × Except EngineError UpdateOk :=
  if validEvmAddress newAddr then
    match s.dflt p with
    | none => (s, Except.error EngineError.NotProvisioned)
    | some _ => (s.setChain p c newAddr, Except.ok ⟨newAddr, c⟩)
  else (s, Except.error EngineError.InvalidAddressFormat)

/-- An engine request: one of the three actions with its payload. -/
inductive Action where
  | store (p : String) (chainIds : List Nat) (addr : String)
  | get (p : String) (chainIds : List Nat)
  | update (p : String) (chainId : Nat) (addr : String)

/-- State transition of the key-value store under one engine action. -/
def stepKV (s : KV) : Action → KV
  | Action.store p cs a => (store s p cs a).fst
  | Action.get p cs => (get s p cs).fst
  | Action.update p c a => (update s p c a).fst

/-- State of the key-value store after a sequence of engine actions. -/
def runKV (s : KV) : List Action → KV
  | [] => s
  | act :: rest => runKV (stepKV s act) rest

/-- Example addresses drawn from the repository's live-test transcript. -/
def addrA : String := "0xcb373e47d769b06dee02f05c86dd8790e0358aee"

def addrB : String := "0xb29db776e2f8e38dcb2da1ee6f92dd1208874424"

def badHexAddr : String := "0xzzzzzzzzzzzzzzzzzzzzzzzzzzzzzzzzzzzzzzzz"

def shortAddr : String := "0x1234"

def noPrefixAddr : String := "cb373e47d769b06dee02f05c86dd8790e0358aeeff"

/-- Example provisioned state: pubkey Pk1 stored on chain 1 with addrA. -/
def sEx : KV := (store KV.empty ("Pk1") [1] addrA).fst

@[simp]
theorem setDflt_dflt (s : KV) (p a q : String) :
    (s.setDflt p a).dflt q = if q = p then some a else s.dflt q := rfl

@[simp]
theorem setDflt_chains (s : KV) (p a q : String) (d : Nat) :
    (s.setDflt p a).chains q d = s.chains q d := rfl

@[simp]
theorem setChain_dflt (s : KV) (p : String) (c : Nat) (a q : String) :
    (s.setChain p c a).dflt q = s.dflt q := rfl

@[simp]
theorem setChain_chains (s : KV) (p : String) (c : Nat) (a q : String) (d : Nat) :
    (s.setChain p c a).chains q d = if q = p ∧ d = c then some a else s.chains q d := rfl

theorem createDflt_of_some (s : KV) (p a v : String) (h : s.dflt p = some v) :
    s.createDfltIfAbsent p a = (s, false) := by
  unfold KV.createDfltIfAbsent
  rw [h]

theorem createDflt_of_none (s : KV) (p a : String) (h : s.dflt p = none) :
    s.createDfltIfAbsent p a = (s.setDflt p a, true) := by
  unfold KV.createDfltIfAbsent
  rw [h]

theorem createChain_of_some (s : KV) (p : String) (c : Nat) (a v : String)
    (h : s.chains p c = some v) :
    s.createChainIfAbsent p c a = (s, false) := by
  unfold KV.createChainIfAbsent
  rw [h]

theorem createChain_of_none (s : KV) (p : String) (c : Nat) (a : String)
    (h : s.chains p c = none) :
    s.createChainIfAbsent p c a = (s.setChain p c a, true) := by
  unfold KV.createChainIfAbsent
  rw [h]

theorem createChain_fst_dflt (s : KV) (p : String) (c : Nat) (a q : String) :
    ((s.createChainIfAbsent p c a).fst).dflt q = s.dflt q := by
  unfold KV.createChainIfAbsent
  cases h : s.chains p c <;> rfl

theorem createChain_fst_self (s : KV) (p : String) (c : Nat) (a : String) :
    ((s.createChainIfAbsent p c a).fst).chains p c = some ((s.chains p c).getD a) := by
  unfold KV.createChainIfAbsent
  cases h : s.chains p c with
  | none => simp
  | some v => simp [h]

theorem createChain_fst_mono (s : KV) (p : String) (c : Nat) (a q : String) (d : Nat)
    (v : String) (h : s.chains q d = some v) :
    ((s.createChainIfAbsent p c a).fst).chains q d = some v := by
  unfold KV.createChainIfAbsent
  cases h2 : s.chains p c with
  | some w => exact h
  | none =>
      simp only [setChain_chains]
      by_cases hqd : q = p ∧ d = c
      · rcases hqd with ⟨hq, hd⟩
        rw [hq, hd] at h
        rw [h2] at h
        exact absurd h (by simp)
      · rw [if_neg hqd]
        exact h

theorem storeChains_fst_dflt (p canon : String) (cs : List Nat) (s : KV) (q : String) :
    ((storeChains p canon cs s).fst).dflt q = s.dflt q := by
  induction cs generalizing s with
  | nil => rfl
  | cons c cs ih =>
      unfold storeChains
      simp only []
      rw [ih]
      exact createChain_fst_dflt s p c canon q

theorem storeChains_fst_mono (p canon : String) (cs : List Nat) (s : KV) (q : String)
    (d : Nat) (v : String) (h : s.chains q d = some v) :
    ((storeChains p canon cs s).fst).chains q d = some v := by
  induction cs generalizing s with
  | nil => exact h
  | cons c cs ih =>
      unfold storeChains
      simp only []
      exact ih _ (createChain_fst_mono s p c canon q d v h)

theorem storeChains_fst_set (p canon : String) (cs : List Nat) (s : KV) (c : Nat)
    (hc : c ∈ cs) :
    ∃ v, ((storeChains p canon cs s).fst).chains p c = some v := by
  induction cs generalizing s with
  | nil => cases hc
  | cons c0 cs ih =>
      unfold storeChains
      simp only []
      rcases List.mem_cons.mp hc with h0 | h0
      · subst h0
        refine ⟨(s.chains p c).getD canon, ?_⟩
        exact storeChains_fst_mono p canon cs _ p c _ (createChain_fst_self s p c canon)
      · exact ih _ h0

theorem storeChains_snd_eq (p canon : String) (cs : List Nat) (s : KV) :
    (storeChains p canon cs s).snd
      = cs.map (fun c => (c, (((storeChains p canon cs s).fst).chains p c).getD canon)) := by
  induction cs generalizing s with
  | nil => rfl
  | cons c cs ih =>
      have h1 := createChain_fst_self s p c canon
      have h2 := storeChains_fst_mono p canon cs ((s.createChainIfAbsent p c canon).fst)
        p c _ h1
      unfold storeChains
      simp only [List.map_cons]
      rw [ih, h2, h1]

theorem storeChains_fst_of_allSet (p canon : String) (cs : List Nat) (s : KV)
    (h : ∀ c ∈ cs, ∃ v, s.chains p c = some v) :
    (storeChains p canon cs s).fst = s := by
  induction cs generalizing s with
  | nil => rfl
  | cons c cs ih =>
      unfold storeChains
      simp only []
      rcases h c (by simp) with ⟨v, hv⟩
      rw [createChain_of_some s p c canon v hv]
      exact ih s (fun d hd => h d (by simp [hd]))

/-- C8 helper: concrete equation for store on the empty chain list. -/
theorem store_nil_eq (s : KV) (p a : String) :
    store s p [] a = (s, Except.error EngineError.EmptyChainList) := rfl

/-- C8: For every pubkey and evm_address, store with chain_ids equal to the
empty list is rejected with EmptyChainList, deterministically and before
any key-value read or write is performed: the result is the error and the
store is returned exactly as it was, independently of its contents. -/
theorem store_emptyChainList (s : KV) (p a : String) :
    store s p [] a = (s, Except.error EngineError.EmptyChainList) :=
  store_nil_eq s p a

/-- C4: update with a well-formed address on a pubkey whose default key is
absent is rejected with NotProvisioned and performs no write: the store
comes back unchanged. -/
theorem update_notProvisioned (s : KV) (p : String) (c : Nat) (a : String)
    (ha : validEvmAddress a = true) (h : s.dflt p = none) :
    update s p c a = (s, Except.error EngineError.NotProvisioned) := by
  unfold update
  rw [ha, h]
  rfl

/-- C4 witness: on the empty store, update of pubkey Pk1 chain 1 with the
well-formed address addrA is rejected with NotProvisioned and the store is
unchanged. -/
theorem update_notProvisioned_witness :
    validEvmAddress addrA = true ∧ KV.empty.dflt ("Pk1") = none ∧
      update KV.empty ("Pk1") 1 addrA
        = (KV.empty, Except.error EngineError.NotProvisioned) :=
  ⟨by decide, rfl, update_notProvisioned KV.empty ("Pk1") 1 addrA (by decide) rfl⟩

/-- C6: get returns NotProvisioned when the default key is absent;
otherwise it returns the stored default address and, per requested chain,
the stored value when present and an explicit none when absent (no
substitution of the default); in both cases the store is returned
unchanged (no writes). -/
theorem get_contract (s : KV) (p : String) (cs : List Nat) :
    ((get s p cs).fst = s) ∧
    (s.dflt p = none → (get s p cs).snd = Except.error EngineError.NotProvisioned) ∧
    (∀ d, s.dflt p = some d →
      (get s p cs).snd = Except.ok ⟨d, cs.map (fun c => (c, s.chains p c))⟩) := by
  refine ⟨?_, ?_, ?_⟩
  · unfold get
    cases s.dflt p <;> rfl
  · intro h
    unfold get
    rw [h]
  · intro d h
    unfold get
    rw [h]

/-- C6 witness: on the empty store get is NotProvisioned; on the example
provisioned state it returns the stored default addrA, the stored value at
chain 1 and an explicit none at the never-created chain 2, with the store
unchanged. -/
theorem get_contract_witness :
    (get KV.empty ("Pk1") [1]).snd = Except.error EngineError.NotProvisioned ∧
    (get sEx ("Pk1") [1, 2]).snd
      = Except.ok ⟨addrA, [(1, some addrA), (2, (none : Option String))]⟩ ∧
    (get sEx ("Pk1") [1, 2]).fst = sEx :=
  ⟨(get_contract KV.empty ("Pk1") [1]).2.1 rfl,
   ((get_contract sEx ("Pk1") [1, 2]).2.2 addrA (by decide)).trans (by decide),
   (get_contract sEx ("Pk1") [1, 2]).1⟩

/-- C7: update rejects with InvalidAddressFormat exactly when the new
address fails the 0x-plus-40-hex-characters check, and on such a rejection
the store is unchanged (no write). -/
theorem update_addressValidation (s : KV) (p : String) (c : Nat) (a : String) :
    ((update s p c a).snd = Except.error EngineError.InvalidAddressFormat
        ↔ validEvmAddress a = false) ∧
    (validEvmAddress a = false →
        update s p c a = (s, Except.error EngineError.InvalidAddressFormat)) := by
  cases hv : validEvmAddress a with
  | false =>
      have he : update s p c a = (s, Except.error EngineError.InvalidAddressFormat) := by
        unfold update
        rw [hv]
        simp
      exact ⟨⟨fun _ => rfl, fun _ => by rw [he]⟩, fun _ => he⟩
  | true =>
      have hne : (update s p c a).snd ≠ Except.error EngineError.InvalidAddressFormat := by
        unfold update
        rw [hv]
        cases h : s.dflt p <;> simp [h]
      exact ⟨⟨fun hc => absurd hc hne, fun hc => absurd hc (by decide)⟩,
        fun hc => absurd hc (by decide)⟩

/-- C7 witness: a 42-character 0x-prefixed string with non-hex characters,
a too-short string, and a 42-character string missing the 0x prefix are
each rejected with InvalidAddressFormat and leave the store unchanged. -/
theorem update_addressValidation_witness :
    validEvmAddress badHexAddr = false ∧
    validEvmAddress shortAddr = false ∧
    validEvmAddress noPrefixAddr = false ∧
    update sEx ("Pk1") 1 badHexAddr
      = (sEx, Except.error EngineError.InvalidAddressFormat) ∧
    update sEx ("Pk1") 1 shortAddr
      = (sEx, Except.error EngineError.InvalidAddressFormat) ∧
    update sEx ("Pk1") 1 noPrefixAddr
      = (sEx, Except.error EngineError.InvalidAddressFormat) :=
  ⟨by decide, by decide, by decide,
   (update_addressValidation sEx ("Pk1") 1 badHexAddr).2 (by decide),
   (update_addressValidation sEx ("Pk1") 1 shortAddr).2 (by decide),
   (update_addressValidation sEx ("Pk1") 1 noPrefixAddr).2 (by decide)⟩

theorem get_fst_eq (s : KV) (p : String) (cs : List Nat) : (get s p cs).fst = s := by
  unfold get
  cases s.dflt p <;> rfl

theorem update_fst_dflt (s : KV) (p : String) (c : Nat) (a q : String) :
    ((update s p c a).fst).dflt q = s.dflt q := by
  unfold update
  cases hv : validEvmAddress a
  · rfl
  · cases hd : s.dflt p <;> rfl

/-- Canonical default address resolved by a store call: the candidate if
the createIfAbsent on the default key won, otherwise the value read back
from the default key. -/
def storeCanon (s : KV) (p a : String) : String :=
  if (s.createDfltIfAbsent p a).snd then a
  else (((s.createDfltIfAbsent p a).fst).dflt p).getD a

theorem store_eq_of_valid (s : KV) (p : String) (cs : List Nat) (a : String)
    (hne : cs.isEmpty = false) (ha : validEvmAddress a = true) :
    store s p cs a =
      ((storeChains p (storeCanon s p a) cs ((s.createDfltIfAbsent p a).fst)).fst,
        Except.ok ⟨storeCanon s p a,
          (storeChains p (storeCanon s p a) cs ((s.createDfltIfAbsent p a).fst)).snd⟩) := by
  unfold store storeCanon
  rw [hne, ha]
  rfl

theorem store_eq_of_invalid (s : KV) (p : String) (cs : List Nat) (a : String)
    (hne : cs.isEmpty = false) (ha : validEvmAddress a = false) :
    store s p cs a = (s, Except.error EngineError.InvalidAddressFormat) := by
  unfold store
  rw [hne, ha]
  rfl

theorem store_eq_of_empty (s : KV) (p : String) (cs : List Nat) (a : String)
    (hne : cs.isEmpty = true) :
    store s p cs a = (s, Except.error EngineError.EmptyChainList) := by
  unfold store
  rw [hne]
  rfl

theorem store_fst_dflt_preserved (s : KV) (p : String) (cs : List Nat) (cand q a : String)
    (h : s.dflt q = some a) : ((store s p cs cand).fst).dflt q = some a := by
  cases he : cs.isEmpty
  · cases hv : validEvmAddress cand
    · rw [store_eq_of_invalid s p cs cand he hv]
      exact h
    · rw [store_eq_of_valid s p cs cand he hv]
      show ((storeChains p (storeCanon s p cand) cs
        ((s.createDfltIfAbsent p cand).fst)).fst).dflt q = some a
      rw [storeChains_fst_dflt]
      unfold KV.createDfltIfAbsent
      cases hd : s.dflt p
      · simp only [setDflt_dflt]
        by_cases hqp : q = p
        · rw [hqp, hd] at h
          cases h
        · rw [if_neg hqp]
          exact h
      · exact h
  · rw [store_eq_of_empty s p cs cand he]
    exact h

theorem step_dflt_preserved (s : KV) (act : Action) (p a : String)
    (h : s.dflt p = some a) : (stepKV s act).dflt p = some a := by
  cases act with
  | store q cs cand => exact store_fst_dflt_preserved s q cs cand p a h
  | get q cs =>
      show ((get s q cs).fst).dflt p = some a
      rw [get_fst_eq]
      exact h
  | update q c cand =>
      show ((update s q c cand).fst).dflt p = some a
      rw [update_fst_dflt]
      exact h

theorem runKV_dflt_preserved (l : List Action) (s : KV) (p a : String)
    (h : s.dflt p = some a) : (runKV s l).dflt p = some a := by
  induction l generalizing s with
  | nil => exact h
  | cons act rest ih => exact ih _ (step_dflt_preserved s act p a h)

/-- C1: For every pubkey, in every state reachable from the empty store by
a sequence of store, get and update actions, once the default key holds an
address, no further store (with any candidate) or update action changes or
removes that value — so the default key is written at most once. -/
theorem defaultMapping_immutable (pre post : List Action) (p a : String)
    (h : (runKV KV.empty pre).dflt p = some a) :
    (runKV (runKV KV.empty pre) post).dflt p = some a :=
  runKV_dflt_preserved post _ p a h

/-- C1 witness: after provisioning Pk1 with addrA, a later store with a
different candidate, an update on chain 1 and a get leave the default at
addrA. -/
theorem defaultMapping_immutable_witness :
    (runKV KV.empty [Action.store ("Pk1") [1] addrA]).dflt ("Pk1") = some addrA ∧
    (runKV (runKV KV.empty [Action.store ("Pk1") [1] addrA])
        [Action.store ("Pk1") [1, 137] addrB, Action.update ("Pk1") 1 addrB,
          Action.get ("Pk1") [1]]).dflt ("Pk1") = some addrA :=
  ⟨by decide,
   defaultMapping_immutable [Action.store ("Pk1") [1] addrA]
     [Action.store ("Pk1") [1, 137] addrB, Action.update ("Pk1") 1 addrB,
       Action.get ("Pk1") [1]] ("Pk1") addrA (by decide)⟩

theorem createDflt_fst_self (s : KV) (p a : String) :
    ((s.createDfltIfAbsent p a).fst).dflt p = some (storeCanon s p a) := by
  unfold storeCanon KV.createDfltIfAbsent
  cases hd : s.dflt p
  · simp
  · simp [hd]

/-- C2: For every valid input (pubkey, non-empty chain id list, well-formed
candidate address), two sequential store calls with the same arguments
both succeed and return the identical response — the same evm_address and
the same chain_mappings; in particular the second call does not error
because the mappings already exist. -/
theorem store_idempotent (s : KV) (p : String) (cs : List Nat) (a : String)
    (hcs : cs ≠ []) (ha : validEvmAddress a = true) :
    ∃ out, (store s p cs a).snd = Except.ok out ∧
      (store (store s p cs a).fst p cs a).snd = Except.ok out := by
  have hne : cs.isEmpty = false := by
    cases cs
    · exact absurd rfl hcs
    · rfl
  have e1 := store_eq_of_valid s p cs a hne ha
  set canon := storeCanon s p a with hcanon
  set S1 := (storeChains p canon cs ((s.createDfltIfAbsent p a).fst)).fst with hS1
  have hfst1 : (store s p cs a).fst = S1 := by rw [e1]
  have hdflt : S1.dflt p = some canon := by
    rw [hS1, storeChains_fst_dflt]
    exact createDflt_fst_self s p a
  have hall : ∀ c ∈ cs, ∃ v, S1.chains p c = some v := by
    intro c hc
    rw [hS1]
    exact storeChains_fst_set p canon cs _ c hc
  have hcreate2 : S1.createDfltIfAbsent p a = (S1, false) :=
    createDflt_of_some S1 p a canon hdflt
  have hcreatefst : (S1.createDfltIfAbsent p a).fst = S1 := by rw [hcreate2]
  have hcanon2 : storeCanon S1 p a = canon := by
    unfold storeCanon
    rw [hcreate2]
    simp [hdflt]
  have hsnd2 : (storeChains p (storeCanon S1 p a) cs ((S1.createDfltIfAbsent p a).fst)).snd
      = (storeChains p canon cs ((s.createDfltIfAbsent p a).fst)).snd := by
    rw [hcanon2, hcreatefst,
      storeChains_snd_eq p canon cs S1,
      storeChains_snd_eq p canon cs ((s.createDfltIfAbsent p a).fst),
      storeChains_fst_of_allSet p canon cs S1 hall, ← hS1]
  have e2 := store_eq_of_valid S1 p cs a hne ha
  refine ⟨⟨canon, (storeChains p canon cs ((s.createDfltIfAbsent p a).fst)).snd⟩, ?_, ?_⟩
  · rw [e1]
  · rw [hfst1, e2, hsnd2, hcanon2]

/-- C2 witness: storing Pk1 on chains 1 and 137 with addrA twice in a row
returns the same successful response both times. -/
theorem store_idempotent_witness :
    ([1, 137] : List Nat) ≠ [] ∧ validEvmAddress addrA = true ∧
    ∃ out, (store KV.empty ("Pk1") [1, 137] addrA).snd = Except.ok out ∧
      (store (store KV.empty ("Pk1") [1, 137] addrA).fst ("Pk1") [1, 137] addrA).snd
        = Except.ok out :=
  ⟨by decide, by decide,
   store_idempotent KV.empty ("Pk1") [1, 137] addrA (by decide) (by decide)⟩

/-- Modelled from the spec: an interleaved race of store calls for the
same pubkey.  The only shared step that decides the race is each call's
atomic createIfAbsent on the default key; the schedule lists the
candidates in the order their atomic writes reach the store, and the
result records, per call, whether its write succeeded. -/
def runRace (p : String) : KV → List String → KV × List Bool
  | s, [] => (s, [])
  | s, cand :: rest =>
      let r := s.createDfltIfAbsent p cand
      let r2 := runRace p r.fst rest
      (r2.fst, r.snd :: r2.snd)

/-- Modelled from the spec: the canonical address each racing call
reports — its own candidate if its write won, otherwise the value it
reads back from the default key after its rejection (the default key
never changes once set, so the read is taken against the final state). -/
def raceReports (p : String) (s : KV) (cands : List String) : List String :=
  (List.zip cands (runRace p s cands).snd).map
    (fun cw => if cw.snd then cw.fst else (((runRace p s cands).fst).dflt p).getD cw.fst)

theorem runRace_of_some (p : String) (s : KV) (w : String) (h : s.dflt p = some w) :
    ∀ cands, runRace p s cands = (s, cands.map (fun _ => false)) := by
  intro cands
  induction cands with
  | nil => rfl
  | cons cand cs ih =>
      have hf : (s.createDfltIfAbsent p cand).fst = s := by
        rw [createDflt_of_some s p cand w h]
      have hs : (s.createDfltIfAbsent p cand).snd = false := by
        rw [createDflt_of_some s p cand w h]
      show ((runRace p (s.createDfltIfAbsent p cand).fst cs).fst,
          (s.createDfltIfAbsent p cand).snd
            :: (runRace p (s.createDfltIfAbsent p cand).fst cs).snd)
        = (s, List.map (fun _ => false) (cand :: cs))
      rw [hf, hs, ih]
      rfl

theorem runRace_cons_of_none (p : String) (s : KV) (c0 : String) (rest : List String)
    (h : s.dflt p = none) :
    runRace p s (c0 :: rest) = (s.setDflt p c0, true :: rest.map (fun _ => false)) := by
  have hf : (s.createDfltIfAbsent p c0).fst = s.setDflt p c0 := by
    rw [createDflt_of_none s p c0 h]
  have hs : (s.createDfltIfAbsent p c0).snd = true := by
    rw [createDflt_of_none s p c0 h]
  have hd : (s.setDflt p c0).dflt p = some c0 := by simp
  show ((runRace p (s.createDfltIfAbsent p c0).fst rest).fst,
      (s.createDfltIfAbsent p c0).snd
        :: (runRace p (s.createDfltIfAbsent p c0).fst rest).snd)
    = (s.setDflt p c0, true :: rest.map (fun _ => false))
  rw [hf, hs, runRace_of_some p (s.setDflt p c0) c0 hd rest]

theorem count_true_falses (l : List String) : ((l.map (fun _ => false)).count true) = 0 := by
  induction l with
  | nil => rfl
  | cons x l ih => simpa [List.count_cons] using ih

theorem zip_const_false_snd (l : List String) :
    ∀ x ∈ List.zip l (l.map (fun _ => false)), x.snd = false := by
  induction l with
  | nil =>
      intro x hx
      cases hx
  | cons a l ih =>
      intro x hx
      simp only [List.map_cons, List.zip_cons_cons, List.mem_cons] at hx
      rcases hx with h | h
      · rw [h]
      · exact ih x h

theorem raceReports_head_of_none (p : String) (s : KV) (c0 : String) (rest : List String)
    (h : s.dflt p = none) :
    ∀ r ∈ raceReports p s (c0 :: rest), r = c0 := by
  intro r hr
  unfold raceReports at hr
  rw [runRace_cons_of_none p s c0 rest h] at hr
  simp only [List.zip_cons_cons, List.map_cons, List.mem_cons] at hr
  rcases hr with h0 | h0
  · simpa using h0
  · rcases List.mem_map.mp h0 with ⟨x, hx, hfx⟩
    have hsnd := zip_const_false_snd rest x hx
    rw [← hfx, hsnd]
    simp

theorem raceReports_of_some (p : String) (s : KV) (w : String) (cands : List String)
    (h : s.dflt p = some w) : ∀ r ∈ raceReports p s cands, r = w := by
  intro r hr
  unfold raceReports at hr
  rw [runRace_of_some p s w h cands] at hr
  rcases List.mem_map.mp hr with ⟨x, hx, hfx⟩
  have hsnd := zip_const_false_snd cands x hx
  rw [← hfx, hsnd]
  simp [h]

/-- C3: In any interleaving of concurrent store calls for the same pubkey,
at most one call's createIfAbsent on the default key succeeds; when the
default was unset, the first scheduled write wins (exactly one success),
the default ends at the first candidate, every losing call observes a
rejection and falls back to reading the stored value, and all calls
report the same canonical default address; when the default was already
set, no write succeeds and all calls report the existing value. -/
theorem store_race_convergence (s : KV) (p c0 : String) (rest : List String) :
    (((runRace p s (c0 :: rest)).snd.count true) ≤ 1) ∧
    (s.dflt p = none →
      (((runRace p s (c0 :: rest)).snd.count true) = 1) ∧
      ((runRace p s (c0 :: rest)).fst.dflt p = some c0) ∧
      (∀ r ∈ raceReports p s (c0 :: rest), r = c0)) ∧
    (∀ w, s.dflt p = some w → ∀ r ∈ raceReports p s (c0 :: rest), r = w) := by
  refine ⟨?_, fun h => ⟨?_, ?_, raceReports_head_of_none p s c0 rest h⟩,
    fun w hw => raceReports_of_some p s w (c0 :: rest) hw⟩
  · cases hd : s.dflt p with
    | some w =>
        rw [runRace_of_some p s w hd (c0 :: rest)]
        simp [List.count_replicate]
    | none =>
        rw [runRace_cons_of_none p s c0 rest hd]
        simp [List.count_cons, List.count_replicate]
  · rw [runRace_cons_of_none p s c0 rest h]
    simp [List.count_cons, List.count_replicate]
  · rw [runRace_cons_of_none p s c0 rest h]
    simp

/-- C3 witness: two store calls race for Pk1 on the empty store with
candidates addrA and addrB; exactly one write succeeds and the default
ends at the first scheduled candidate addrA. -/
theorem store_race_convergence_witness :
    KV.empty.dflt ("Pk1") = none ∧
    ((runRace ("Pk1") KV.empty [addrA, addrB]).snd.count true) = 1 ∧
    ((runRace ("Pk1") KV.empty [addrA, addrB]).fst.dflt ("Pk1") = some addrA) :=
  ⟨rfl, ((store_race_convergence KV.empty ("Pk1") addrA [addrB]).2.1 rfl).1,
    ((store_race_convergence KV.empty ("Pk1") addrA [addrB]).2.1 rfl).2.1⟩

/-- C5: A successful update (provisioned pubkey, well-formed address)
returns the new address and chain id, sets exactly the chain key of that
(pubkey, chain) pair, leaves every default key and every other chain key
— for this pubkey and all others — exactly as they were, and a subsequent
get that does not ask about the updated chain returns what it returned
before. -/
theorem update_frame (s : KV) (p : String) (c : Nat) (a d : String)
    (ha : validEvmAddress a = true) (hp : s.dflt p = some d) :
    ((update s p c a).snd = Except.ok ⟨a, c⟩) ∧
    (((update s p c a).fst).chains p c = some a) ∧
    (∀ q, ((update s p c a).fst).dflt q = s.dflt q) ∧
    (∀ q e, ¬(q = p ∧ e = c) → ((update s p c a).fst).chains q e = s.chains q e) ∧
    (∀ q ds, ¬(q = p ∧ c ∈ ds) →
      (get ((update s p c a).fst) q ds).snd = (get s q ds).snd) := by
  have he : update s p c a = (s.setChain p c a, Except.ok ⟨a, c⟩) := by
    unfold update
    rw [ha, hp]
    rfl
  rw [he]
  refine ⟨rfl, by simp, fun q => rfl, ?_, ?_⟩
  · intro q e hne
    show (s.setChain p c a).chains q e = s.chains q e
    rw [setChain_chains, if_neg hne]
  · intro q ds hne
    show (get (s.setChain p c a) q ds).snd = (get s q ds).snd
    unfold get
    rw [setChain_dflt]
    cases hdq : s.dflt q with
    | none => rfl
    | some d0 =>
        have hmap : ds.map (fun e => (e, (s.setChain p c a).chains q e))
            = ds.map (fun e => (e, s.chains q e)) := by
          apply List.map_congr_left
          intro e he2
          have hcond : ¬(q = p ∧ e = c) := by
            intro hqe
            exact hne ⟨hqe.1, hqe.2 ▸ he2⟩
          rw [setChain_chains, if_neg hcond]
        show Except.ok (⟨d0, ds.map (fun e => (e, (s.setChain p c a).chains q e))⟩ : GetOk)
            = Except.ok ⟨d0, ds.map (fun e => (e, s.chains q e))⟩
        rw [hmap]

/-- C5 witness: on the provisioned example state, updating Pk1 chain 137
to addrB succeeds, sets that chain key, and leaves the default and chain 1
(and a get on chain 1) unchanged. -/
theorem update_frame_witness :
    validEvmAddress addrB = true ∧ sEx.dflt ("Pk1") = some addrA ∧
    (update sEx ("Pk1") 137 addrB).snd = Except.ok ⟨addrB, 137⟩ ∧
    ((update sEx ("Pk1") 137 addrB).fst).chains ("Pk1") 137 = some addrB ∧
    ((update sEx ("Pk1") 137 addrB).fst).dflt ("Pk1") = sEx.dflt ("Pk1") ∧
    ((update sEx ("Pk1") 137 addrB).fst).chains ("Pk1") 1 = sEx.chains ("Pk1") 1 ∧
    (get ((update sEx ("Pk1") 137 addrB).fst) ("Pk1") [1]).snd
      = (get sEx ("Pk1") [1]).snd :=
  ⟨by decide, by decide,
   (update_frame sEx ("Pk1") 137 addrB addrA (by decide) (by decide)).1,
   (update_frame sEx ("Pk1") 137 addrB addrA (by decide) (by decide)).2.1,
   (update_frame sEx ("Pk1") 137 addrB addrA (by decide) (by decide)).2.2.1 ("Pk1"),
   (update_frame sEx ("Pk1") 137 addrB addrA (by decide) (by decide)).2.2.2.1 ("Pk1") 1
     (by decide),
   (update_frame sEx ("Pk1") 137 addrB addrA (by decide) (by decide)).2.2.2.2 ("Pk1") [1]
     (by decide)⟩

/-- Nonce record stored per pubkey by the backend (backend/solana-auth.ts). -/
structure NonceRecord where
  nonce : String
  createdAt : Nat
  expiresAt : Nat
deriving DecidableEq, Repr

/-- The process-wide nonce map, keyed by Solana pubkey. -/
abbrev NonceStore := String → Option NonceRecord

/-- Nonce time-to-live: 5 minutes in milliseconds. -/
def NONCE_TTL_MS : Nat := 5 * 60 * 1000

/-- generateNonce from backend/solana-auth.ts: record a freshly drawn
nonce (passed in, standing for randomBytes) for the pubkey with expiry
now + NONCE_TTL_MS, and return it. -/
def generateNonce (ns : NonceStore) (solanaPubkey fresh : String) (now : Nat) :
    NonceStore × String :=
  (fun q => if q = solanaPubkey
      then some ⟨fresh, now, now + NONCE_TTL_MS⟩ else ns q, fresh)

/-- consumeNonce from backend/solana-auth.ts: look up the record; if
present it is deleted before the expiry check (single use), so both the
expired and the fresh branch return the store with the pubkey removed;
the nonce itself is returned only when now does not exceed expiresAt. -/
def consumeNonce (ns : NonceStore) (solanaPubkey : String) (now : Nat) :
    NonceStore × Option String :=
  match ns solanaPubkey with
  | none => (ns, none)
  | some record =>
      if now > record.expiresAt then
        (fun q => if q = solanaPubkey then none else ns q, none)
      else
        (fun q => if q = solanaPubkey then none else ns q, some record.nonce)

/-- Observable outcome of authenticateAndProvision: the success:false
nonce and signature rejections, and the two outcomes of the C2F call. -/
inductive AuthOutcome where
  | nonceError
  | signatureError
  | provisioned (evmAddress : String)
  | provisionFailed
deriving DecidableEq, Repr

/-- authenticateAndProvision from backend/solana-auth.ts: consume the
nonce (single use); on a missing or expired nonce reject without
verifying or provisioning; otherwise verify the signature over the nonce
and, on success, call the C2F provisioning endpoint.  The signature
verifier and the C2F call are external and passed as parameters. -/
def authenticateAndProvision (ns : NonceStore) (solanaPubkey signature : String)
    (now : Nat) (verify : String → String → String → Bool)
    (c2f : Except String String) : NonceStore × AuthOutcome :=
  match consumeNonce ns solanaPubkey now with
  | (ns1, none) => (ns1, AuthOutcome.nonceError)
  | (ns1, some nonce) =>
      if verify solanaPubkey signature nonce then
        match c2f with
        | Except.ok addr => (ns1, AuthOutcome.provisioned addr)
        | Except.error _ => (ns1, AuthOutcome.provisionFailed)
      else (ns1, AuthOutcome.signatureError)

theorem consumeNonce_of_none (ns : NonceStore) (p : String) (now : Nat)
    (h : ns p = none) : consumeNonce ns p now = (ns, none) := by
  unfold consumeNonce
  rw [h]

theorem consumeNonce_of_expired (ns : NonceStore) (p : String) (now : Nat)
    (r : NonceRecord) (h : ns p = some r) (hx : r.expiresAt < now) :
    consumeNonce ns p now = (fun q => if q = p then none else ns q, none) := by
  unfold consumeNonce
  rw [h]
  show (if now > r.expiresAt then (fun q => if q = p then none else ns q, (none : Option String))
      else (fun q => if q = p then none else ns q, some r.nonce))
    = (fun q => if q = p then none else ns q, none)
  rw [if_pos hx]

theorem auth_of_noNonce (ns : NonceStore) (p sig : String) (now : Nat)
    (verify : String → String → String → Bool) (c2f : Except String String)
    (h : ns p = none) :
    authenticateAndProvision ns p sig now verify c2f = (ns, AuthOutcome.nonceError) := by
  unfold authenticateAndProvision
  rw [consumeNonce_of_none ns p now h]

theorem auth_of_expired (ns : NonceStore) (p sig : String) (now : Nat)
    (verify : String → String → String → Bool) (c2f : Except String String)
    (r : NonceRecord) (h : ns p = some r) (hx : r.expiresAt < now) :
    authenticateAndProvision ns p sig now verify c2f
      = (fun q => if q = p then none else ns q, AuthOutcome.nonceError) := by
  unfold authenticateAndProvision
  rw [consumeNonce_of_expired ns p now r h hx]

theorem auth_fst_eq_consume (ns : NonceStore) (p sig : String) (now : Nat)
    (verify : String → String → String → Bool) (c2f : Except String String) :
    (authenticateAndProvision ns p sig now verify c2f).fst
      = (consumeNonce ns p now).fst := by
  unfold authenticateAndProvision
  cases hc : consumeNonce ns p now with
  | mk ns1 o =>
      cases o with
      | none => rfl
      | some nonce =>
          show (if verify p sig nonce then
              match c2f with
              | Except.ok addr => (ns1, AuthOutcome.provisioned addr)
              | Except.error _ => (ns1, AuthOutcome.provisionFailed)
            else (ns1, AuthOutcome.signatureError)).fst = ns1
          cases hv : verify p sig nonce
          · rfl
          · cases c2f <;> rfl

theorem auth_consumes (ns : NonceStore) (p sig : String) (now : Nat)
    (verify : String → String → String → Bool) (c2f : Except String String) :
    (authenticateAndProvision ns p sig now verify c2f).fst p = none := by
  rw [auth_fst_eq_consume]
  unfold consumeNonce
  cases hn : ns p with
  | none => exact hn
  | some r =>
      show (if now > r.expiresAt
          then (fun q => if q = p then none else ns q, (none : Option String))
          else (fun q => if q = p then none else ns q, some r.nonce)).fst p = none
      by_cases hx : now > r.expiresAt
      · rw [if_pos hx]
        simp
      · rw [if_neg hx]
        simp

theorem generateNonce_fst_p (ns : NonceStore) (p fresh : String) (t : Nat) :
    (generateNonce ns p fresh t).fst p = some ⟨fresh, t, t + NONCE_TTL_MS⟩ := by
  simp [generateNonce]

/-- C9: authenticateAndProvision rejects with the nonce error — without
consulting the verifier or the C2F provisioning endpoint, both of which
are universally quantified here — when no nonce was issued for the
pubkey, when the stored nonce is expired (strictly more than
NONCE_TTL_MS past issuance), and on a second call after any call
consumed the nonce; and every call leaves the pubkey's nonce entry
removed, including expired-nonce failures. -/
theorem authenticateAndProvision_nonce (ns : NonceStore) (p sig : String) (now : Nat)
    (verify : String → String → String → Bool) (c2f : Except String String) :
    (ns p = none →
      authenticateAndProvision ns p sig now verify c2f = (ns, AuthOutcome.nonceError)) ∧
    (∀ r, ns p = some r → r.expiresAt < now →
      authenticateAndProvision ns p sig now verify c2f
        = (fun q => if q = p then none else ns q, AuthOutcome.nonceError)) ∧
    (∀ fresh t, t + NONCE_TTL_MS < now →
      (authenticateAndProvision (generateNonce ns p fresh t).fst p sig now verify c2f).snd
        = AuthOutcome.nonceError) ∧
    ((authenticateAndProvision ns p sig now verify c2f).fst p = none) ∧
    (∀ sig2 now2 verify2 c2f2,
      (authenticateAndProvision (authenticateAndProvision ns p sig now verify c2f).fst
          p sig2 now2 verify2 c2f2).snd = AuthOutcome.nonceError) := by
  refine ⟨fun h => auth_of_noNonce ns p sig now verify c2f h,
    fun r h hx => auth_of_expired ns p sig now verify c2f r h hx, ?_,
    auth_consumes ns p sig now verify c2f, ?_⟩
  · intro fresh t ht
    rw [auth_of_expired (generateNonce ns p fresh t).fst p sig now verify c2f
      ⟨fresh, t, t + NONCE_TTL_MS⟩ (generateNonce_fst_p ns p fresh t) ht]
  · intro sig2 now2 verify2 c2f2
    rw [auth_of_noNonce (authenticateAndProvision ns p sig now verify c2f).fst
      p sig2 now2 verify2 c2f2 (auth_consumes ns p sig now verify c2f)]

/-- Empty nonce store and trivial external collaborators for witnesses. -/
def emptyNonceStore : NonceStore := fun _ => none

def verifyAlways : String → String → String → Bool := fun _ _ _ => true

def c2fOk : Except String String := Except.ok addrA

/-- C9 witness: with no nonce issued the call rejects with the nonce
error; after issuing a nonce at time 0, a call at time 300001 (one
millisecond past the 5-minute TTL) also rejects with the nonce error. -/
theorem authenticateAndProvision_nonce_witness :
    emptyNonceStore ("Pk1") = none ∧
    authenticateAndProvision emptyNonceStore ("Pk1") ("sig0") 0 verifyAlways c2fOk
      = (emptyNonceStore, AuthOutcome.nonceError) ∧
    (generateNonce emptyNonceStore ("Pk1") ("n0") 0).fst ("Pk1")
      = some ⟨"n0", 0, 300000⟩ ∧
    (authenticateAndProvision (generateNonce emptyNonceStore ("Pk1") ("n0") 0).fst
        ("Pk1") ("sig0") 300001 verifyAlways c2fOk).snd = AuthOutcome.nonceError :=
  ⟨rfl,
   (authenticateAndProvision_nonce emptyNonceStore ("Pk1") ("sig0") 0 verifyAlways
     c2fOk).1 rfl,
   by decide,
   (authenticateAndProvision_nonce emptyNonceStore ("Pk1") ("sig0") 300001 verifyAlways
     c2fOk).2.2.1 ("n0") 0 (by decide)⟩

/-- verifySolanaSignature from backend/solana-auth.ts: the fallible
dependencies — PublicKey construction and byte extraction, base64
decoding of the signature, and nacl.sign.detached.verify — are passed as
Except-valued parameters standing for functions that may throw; the
try/catch surrounding the body maps every raised error to false. -/
def verifySolanaSignature
    (publicKeyBytes : String → Except String (List Nat))
    (base64Bytes : String → Except String (List Nat))
    (utf8Bytes : String → List Nat)
    (naclVerify : List Nat → List Nat → List Nat → Except String Bool)
    (solanaPubkey signature message : String) : Bool :=
  match publicKeyBytes solanaPubkey with
  | Except.error _ => false
  | Except.ok pk =>
      match base64Bytes signature with
      | Except.error _ => false
      | Except.ok sigBytes =>
          match naclVerify (utf8Bytes message) sigBytes pk with
          | Except.error _ => false
          | Except.ok b => b

/-- C10: verifySolanaSignature always returns a boolean: whichever of its
fallible dependencies raises (invalid pubkey, signature decoding, nacl
verification), the error is caught and the result is false; when all
succeed the result is the verifier's boolean.  Totality itself holds by
construction of the embedding, in which every throwing dependency is
Except-valued. -/
theorem verifySolanaSignature_total
    (publicKeyBytes base64Bytes : String → Except String (List Nat))
    (utf8Bytes : String → List Nat)
    (naclVerify : List Nat → List Nat → List Nat → Except String Bool)
    (sp sig msg : String) :
    (∀ e, publicKeyBytes sp = Except.error e →
      verifySolanaSignature publicKeyBytes base64Bytes utf8Bytes naclVerify sp sig msg
        = false) ∧
    (∀ pk e, publicKeyBytes sp = Except.ok pk → base64Bytes sig = Except.error e →
      verifySolanaSignature publicKeyBytes base64Bytes utf8Bytes naclVerify sp sig msg
        = false) ∧
    (∀ pk sb e, publicKeyBytes sp = Except.ok pk → base64Bytes sig = Except.ok sb →
      naclVerify (utf8Bytes msg) sb pk = Except.error e →
      verifySolanaSignature publicKeyBytes base64Bytes utf8Bytes naclVerify sp sig msg
        = false) ∧
    (∀ pk sb b, publicKeyBytes sp = Except.ok pk → base64Bytes sig = Except.ok sb →
      naclVerify (utf8Bytes msg) sb pk = Except.ok b →
      verifySolanaSignature publicKeyBytes base64Bytes utf8Bytes naclVerify sp sig msg
        = b) := by
  refine ⟨?_, ?_, ?_, ?_⟩
  · intro e h
    unfold verifySolanaSignature
    rw [h]
  · intro pk e h1 h2
    unfold verifySolanaSignature
    rw [h1, h2]
  · intro pk sb e h1 h2 h3
    unfold verifySolanaSignature
    rw [h1, h2]
    show (match naclVerify (utf8Bytes msg) sb pk with
      | Except.error _ => false
      | Except.ok b => b) = false
    rw [h3]
  · intro pk sb b h1 h2 h3
    unfold verifySolanaSignature
    rw [h1, h2]
    show (match naclVerify (utf8Bytes msg) sb pk with
      | Except.error _ => false
      | Except.ok b => b) = b
    rw [h3]

/-- Oracles for the C10 witness: a pubkey parser that always throws, and
succeeding decoders and verifier. -/
def pkBytesFail : String → Except String (List Nat) := fun _ => Except.error ("bad pubkey")

def bytesOk : String → Except String (List Nat) := fun _ => Except.ok []

def utf8Id : String → List Nat := fun _ => []

def naclOkTrue : List Nat → List Nat → List Nat → Except String Bool :=
  fun _ _ _ => Except.ok true

/-- C10 witness: with a PublicKey constructor that throws on the given
input, verifySolanaSignature returns false rather than propagating the
error. -/
theorem verifySolanaSignature_total_witness :
    pkBytesFail ("not-base58!") = Except.error ("bad pubkey") ∧
    verifySolanaSignature pkBytesFail bytesOk utf8Id naclOkTrue
      ("not-base58!") ("sig") ("msg") = false :=
  ⟨rfl, (verifySolanaSignature_total pkBytesFail bytesOk utf8Id naclOkTrue
    ("not-base58!") ("sig") ("msg")).1 ("bad pubkey") rfl⟩

end SolanaEvm
